import Mathlib

/-!
Shallow embedding of the `near-core-contracts-as` staking-pool and multisig
contracts (AssemblyScript), together with theorems about the spec's claims.

Machine arithmetic: the contracts use the `u128` type of `as-bignum` via
`near-sdk-as`; its `add`/`sub`/`mul` operators wrap modulo 2^128 (no overflow
checks), and `div` floors.  We model `u128` values as `Nat` with explicit
`% 2^128` wrapping.  `assert(...)` aborts the whole call, modelled by `Option`
(staking pool) / `Except` (multisig, where the spec's claims distinguish the
failure reasons).
-/

namespace NearCore

/-- 2^128, the modulus of the AssemblyScript `u128` type. -/
def U128MOD : Nat := 2 ^ 128

/-- Wrapping `u128` addition (`u128.add`). -/
def add128 (a b : Nat) : Nat := (a + b) % U128MOD

/-- Wrapping `u128` subtraction (`u128.sub`); operands are `u128` values (< 2^128). -/
def sub128 (a b : Nat) : Nat := (a + U128MOD - b) % U128MOD

/-- Wrapping `u128` multiplication (`u128.mul`). -/
def mul128 (a b : Nat) : Nat := (a * b) % U128MOD

theorem add128_eq_of_lt {a b : Nat} (h : a + b < U128MOD) : add128 a b = a + b :=
  Nat.mod_eq_of_lt h

theorem mul128_eq_of_lt {a b : Nat} (h : a * b < U128MOD) : mul128 a b = a * b :=
  Nat.mod_eq_of_lt h

theorem sub128_eq_of_le {a b : Nat} (hba : b ≤ a) (ha : a < U128MOD) :
    sub128 a b = a - b := by
  unfold sub128
  have h1 : a + U128MOD - b = (a - b) + U128MOD := by omega
  rw [h1, Nat.add_mod_right]
  exact Nat.mod_eq_of_lt (by omega)

theorem sub128_eq_sub {a b : Nat} (hba : b ≤ a) (h : a - b < U128MOD) :
    sub128 a b = a - b := by
  unfold sub128
  have h1 : a + U128MOD - b = (a - b) + U128MOD := by omega
  rw [h1, Nat.add_mod_right]
  exact Nat.mod_eq_of_lt h

theorem add128_lt (a b : Nat) : add128 a b < U128MOD :=
  Nat.mod_lt _ (by decide)

theorem mul128_lt (a b : Nat) : mul128 a b < U128MOD :=
  Nat.mod_lt _ (by decide)

theorem sub128_lt (a b : Nat) : sub128 a b < U128MOD :=
  Nat.mod_lt _ (by decide)

/-! ## Staking pool: data model (src/contracts/staking-pool/main.ts) -/

/-- Yocto-NEAR reserved so the share price never decreases
(`STAKE_SHARE_PRICE_GUARANTEE_FUND`). -/
def STAKE_SHARE_PRICE_GUARANTEE_FUND : Nat := 1000000000000

/-- `NUM_EPOCHS_TO_UNLOCK`: epochs until an unstaked balance becomes withdrawable. -/
def NUM_EPOCHS_TO_UNLOCK : Nat := 4

/-- Per-delegator record (`class Account`). -/
structure Account where
  unstaked : Nat
  stake_shares : Nat
  unstaked_available_epoch_height : Nat
  deriving Repr, DecidableEq

/-- `new Account()`: all fields zero. -/
def Account.new : Account := ⟨0, 0, 0⟩

/-- `class RewardFeeFraction`. -/
structure RewardFeeFraction where
  numerator : Nat
  denominator : Nat
  deriving Repr, DecidableEq

/-- `RewardFeeFraction.multiply`: as written in the source,
`u128.mul(value, u128.div(numerator, denominator))` — the division is taken
first. -/
def RewardFeeFraction.multiply (f : RewardFeeFraction) (value : Nat) : Nat :=
  mul128 value (f.numerator / f.denominator)

/-- `class StakingContract` singleton state.  The `accounts` persistent map is
modelled as a total function defaulting to `Account.new` (matching
`internal_get_account`); `stake_public_key` carries no accounting content and
is omitted. -/
structure StakingContract where
  owner_id : String
  last_epoch_height : Nat
  last_total_balance : Nat
  total_stake_shares : Nat
  total_staked_balance : Nat
  reward_fee_fraction : RewardFeeFraction
  accounts : String → Account
  paused : Bool

/-- Host execution context for a single call (`context.*` reads). -/
structure StakeEnv where
  predecessor : String
  attachedDeposit : Nat
  accountBalance : Nat
  accountLockedBalance : Nat
  epochHeight : Nat

/-- `internal_get_account`: stored account or a fresh zero account. -/
def internal_get_account (s : StakingContract) (account_id : String) : Account :=
  s.accounts account_id

/-- `internal_save_account`: persists the account, or deletes the entry
(equivalently: stores a zero account) when both balances are zero. -/
def internal_save_account (s : StakingContract) (account_id : String)
    (account : Account) : StakingContract :=
  if 0 < account.unstaked ∨ 0 < account.stake_shares then
    { s with accounts := fun id => if id = account_id then account else s.accounts id }
  else
    { s with accounts := fun id => if id = account_id then Account.new else s.accounts id }

/-- `num_shares_from_staked_amount_rounded_down`, as written in the source:
`u128.mul(amount, u128.div(total_stake_shares, total_staked_balance))`
(the division is performed before the multiplication).  `none` models the
assert on a zero total staked balance. -/
def num_shares_from_staked_amount_rounded_down (s : StakingContract)
    (amount : Nat) : Option Nat :=
  if s.total_staked_balance = 0 then none
  else some (mul128 amount (s.total_stake_shares / s.total_staked_balance))

/-- `num_shares_from_staked_amount_rounded_up`, as written in the source:
`u128.add(u128.mul(total_stake_shares, amount), u128.div(u128.sub(total_staked_balance, 1), total_staked_balance))`
(the quotient is added to the product, not divided into it). -/
def num_shares_from_staked_amount_rounded_up (s : StakingContract)
    (amount : Nat) : Option Nat :=
  if s.total_staked_balance = 0 then none
  else some (add128 (mul128 s.total_stake_shares amount)
    (sub128 s.total_staked_balance 1 / s.total_staked_balance))

/-- `staked_amount_from_num_shares_rounded_down`, as written in the source:
`u128.mul(num_shares, u128.div(total_staked_balance, total_stake_shares))`. -/
def staked_amount_from_num_shares_rounded_down (s : StakingContract)
    (num_shares : Nat) : Option Nat :=
  if s.total_stake_shares = 0 then none
  else some (mul128 num_shares (s.total_staked_balance / s.total_stake_shares))

/-- `staked_amount_from_num_shares_rounded_up`, as written in the source:
`u128.add(u128.mul(total_staked_balance, num_shares), u128.div(u128.sub(total_stake_shares, 1), total_stake_shares))`. -/
def staked_amount_from_num_shares_rounded_up (s : StakingContract)
    (num_shares : Nat) : Option Nat :=
  if s.total_stake_shares = 0 then none
  else some (add128 (mul128 s.total_staked_balance num_shares)
    (sub128 s.total_stake_shares 1 / s.total_stake_shares))

/-- `internal_deposit`: credits the caller's unstaked balance with the attached
deposit and bumps `last_total_balance`; returns the amount. -/
def internal_deposit (env : StakeEnv) (s : StakingContract) :
    StakingContract × Nat :=
  let account := internal_get_account s env.predecessor
  let amount := env.attachedDeposit
  let account1 := { account with unstaked := add128 amount account.unstaked }
  let s1 := internal_save_account s env.predecessor account1
  ({ s1 with last_total_balance := add128 s1.last_total_balance amount }, amount)

/-- `internal_withdraw`: debits the caller's matured unstaked balance and
lowers `last_total_balance` (the transfer itself is an outbound action). -/
def internal_withdraw (env : StakeEnv) (amount : Nat) (s : StakingContract) :
    Option StakingContract :=
  if amount = 0 then none else
  let account := internal_get_account s env.predecessor
  if account.unstaked < amount then none else
  if env.epochHeight < account.unstaked_available_epoch_height then none else
  let account1 := { account with unstaked := sub128 account.unstaked amount }
  let s1 := internal_save_account s env.predecessor account1
  some { s1 with last_total_balance := sub128 s1.last_total_balance amount }

/-- `internal_stake`, line for line from the source, including
`account.unstaked = u128.sub(charge_amount, account.unstaked)` with the
operands in the order the source writes them. -/
def internal_stake (env : StakeEnv) (amount : Nat) (s : StakingContract) :
    Option StakingContract :=
  if amount = 0 then none else
  let account := internal_get_account s env.predecessor
  match num_shares_from_staked_amount_rounded_down s amount with
  | none => none
  | some num_shares =>
    if num_shares = 0 then none else
    match staked_amount_from_num_shares_rounded_down s num_shares with
    | none => none
    | some charge_amount =>
      if charge_amount = 0 then none else
      if account.unstaked < charge_amount then none else
      let account1 : Account :=
        { unstaked := sub128 charge_amount account.unstaked
          stake_shares := add128 num_shares account.stake_shares
          unstaked_available_epoch_height := account.unstaked_available_epoch_height }
      let s1 := internal_save_account s env.predecessor account1
      match staked_amount_from_num_shares_rounded_up s1 num_shares with
      | none => none
      | some stake_amount =>
        some { s1 with
          total_staked_balance := add128 stake_amount s1.total_staked_balance
          total_stake_shares := add128 num_shares s1.total_stake_shares }

/-- `inner_unstake`, line for line from the source, including the swapped
`u128.sub(num_shares, account.stake_shares)` and the final `u128.add`s on
both pool totals. -/
def inner_unstake (env : StakeEnv) (amount : Nat) (s : StakingContract) :
    Option StakingContract :=
  if amount = 0 then none else
  let account := internal_get_account s env.predecessor
  if s.total_staked_balance = 0 then none else
  match num_shares_from_staked_amount_rounded_up s amount with
  | none => none
  | some num_shares =>
    if num_shares = 0 then none else
    if account.stake_shares < num_shares then none else
    match staked_amount_from_num_shares_rounded_up s num_shares with
    | none => none
    | some receive_amount =>
      if receive_amount = 0 then none else
      let account1 : Account :=
        { unstaked := add128 receive_amount account.unstaked
          stake_shares := sub128 num_shares account.stake_shares
          unstaked_available_epoch_height := env.epochHeight + NUM_EPOCHS_TO_UNLOCK }
      let s1 := internal_save_account s env.predecessor account1
      match staked_amount_from_num_shares_rounded_down s1 num_shares with
      | none => none
      | some unstake_amount =>
        some { s1 with
          total_staked_balance := add128 s1.total_staked_balance unstake_amount
          total_stake_shares := add128 s1.total_stake_shares num_shares }

/-- `internal_ping`: epoch-boundary reward distribution.  Returns the updated
state and the `bool` the method returns. -/
def internal_ping (env : StakeEnv) (s : StakingContract) :
    Option (StakingContract × Bool) :=
  if s.last_epoch_height = env.epochHeight then some (s, false) else
  let s0 := { s with last_epoch_height := env.epochHeight }
  let total_balance :=
    add128 env.accountLockedBalance (sub128 env.accountBalance env.attachedDeposit)
  if total_balance < s0.last_total_balance then none else
  let total_reward := sub128 total_balance s0.last_total_balance
  if 0 < total_reward then
    let owners_fee := s0.reward_fee_fraction.multiply total_reward
    let remaining_reward := sub128 total_reward owners_fee
    let s1 := { s0 with
      total_staked_balance := add128 remaining_reward s0.total_staked_balance }
    match num_shares_from_staked_amount_rounded_down s1 owners_fee with
    | none => none
    | some num_shares =>
      let s2 :=
        if 0 < num_shares then
          let account := internal_get_account s1 s1.owner_id
          let account1 :=
            { account with stake_shares := add128 num_shares account.stake_shares }
          let s1a := internal_save_account s1 s1.owner_id account1
          { s1a with total_stake_shares := add128 num_shares s1a.total_stake_shares }
        else s1
      let s3 := { s2 with
        total_staked_balance := add128 s2.total_staked_balance owners_fee }
      some ({ s3 with last_total_balance := total_balance }, true)
  else
    some ({ s0 with last_total_balance := total_balance }, true)

/-- `StakingContract.init`: genesis state.  Asserts a valid fee fraction and a
nonzero locked balance; both pool totals start at
`accountBalance - STAKE_SHARE_PRICE_GUARANTEE_FUND`. -/
def StakingContract.init (owner_id : String) (reward_fee_fraction : RewardFeeFraction)
    (env : StakeEnv) : Option StakingContract :=
  if reward_fee_fraction.denominator = 0 then none else
  if reward_fee_fraction.denominator < reward_fee_fraction.numerator then none else
  if env.accountLockedBalance = 0 then none else
  let total_staked_balance := sub128 env.accountBalance STAKE_SHARE_PRICE_GUARANTEE_FUND
  some { owner_id := owner_id
         last_epoch_height := env.epochHeight
         last_total_balance := env.accountBalance
         total_stake_shares := total_staked_balance
         total_staked_balance := total_staked_balance
         reward_fee_fraction := reward_fee_fraction
         accounts := fun _ => Account.new
         paused := false }

/-! ## Staking pool: reachability -/

/-- A state is initial when `StakingContract.init` can produce it. -/
def InitState (s : StakingContract) : Prop :=
  ∃ owner_id reward_fee_fraction env,
    StakingContract.init owner_id reward_fee_fraction env = some s

/-- One successful state transition of the staking pool (internal operations;
the public entry points are compositions of these). -/
inductive Step : StakingContract → StakingContract → Prop
  | deposit (env : StakeEnv) (s : StakingContract) :
      Step s (internal_deposit env s).1
  | withdraw (env : StakeEnv) (amount : Nat) (s s' : StakingContract) :
      internal_withdraw env amount s = some s' → Step s s'
  | stake (env : StakeEnv) (amount : Nat) (s s' : StakingContract) :
      internal_stake env amount s = some s' → Step s s'
  | unstake (env : StakeEnv) (amount : Nat) (s s' : StakingContract) :
      inner_unstake env amount s = some s' → Step s s'
  | ping (env : StakeEnv) (s s' : StakingContract) (b : Bool) :
      internal_ping env s = some (s', b) → Step s s'
  | setFee (s : StakingContract) (f : RewardFeeFraction) :
      f.numerator ≤ f.denominator → 0 < f.denominator →
      Step s { s with reward_fee_fraction := f }

/-- Reachable staking-pool states. -/
def Reachable (s : StakingContract) : Prop :=
  ∃ s0, InitState s0 ∧ Relation.ReflTransGen Step s0 s

/-- Wrap-freedom side condition for `internal_stake`: the two wrapping
additions feeding the pool totals stay below 2^128 (written in terms of the
number of shares the call computes). -/
def StakeNoWrap (amount : Nat) (s : StakingContract) : Prop :=
  s.total_staked_balance * (amount * (s.total_stake_shares / s.total_staked_balance))
      + s.total_staked_balance < U128MOD ∧
  s.total_stake_shares + amount * (s.total_stake_shares / s.total_staked_balance) < U128MOD

/-- Wrap-freedom side condition for `inner_unstake`: the share computation
`total_stake_shares * amount` does not wrap. -/
def UnstakeNoWrap (amount : Nat) (s : StakingContract) : Prop :=
  s.total_stake_shares * amount < U128MOD

/-- The exact (unbounded) total balance `internal_ping` reads from the host. -/
def pingTotalBalance (env : StakeEnv) : Nat :=
  env.accountLockedBalance + (env.accountBalance - env.attachedDeposit)

/-- The exact reward `internal_ping` computes when nothing wraps. -/
def pingReward (env : StakeEnv) (s : StakingContract) : Nat :=
  pingTotalBalance env - s.last_total_balance

/-- The exact owner fee `internal_ping` computes when nothing wraps. -/
def pingFee (env : StakeEnv) (s : StakingContract) : Nat :=
  pingReward env s *
    (s.reward_fee_fraction.numerator / s.reward_fee_fraction.denominator)

/-- The staked total after the delegator remainder is added, when nothing wraps. -/
def pingGrown (env : StakeEnv) (s : StakingContract) : Nat :=
  (pingReward env s - pingFee env s) + s.total_staked_balance

/-- Wrap-freedom side condition for `internal_ping`: the balance-diff and the
additions feeding the pool totals stay below 2^128. -/
def PingNoWrap (env : StakeEnv) (s : StakingContract) : Prop :=
  env.attachedDeposit ≤ env.accountBalance ∧
  pingTotalBalance env < U128MOD ∧
  pingGrown env s < U128MOD ∧
  pingGrown env s + pingFee env s < U128MOD ∧
  s.total_stake_shares
    + pingFee env s * (s.total_stake_shares / pingGrown env s) < U128MOD

/-- A successful transition none of whose `u128` operations on the pool
accounting wraps. -/
inductive StepNoWrap : StakingContract → StakingContract → Prop
  | deposit (env : StakeEnv) (s : StakingContract) :
      StepNoWrap s (internal_deposit env s).1
  | withdraw (env : StakeEnv) (amount : Nat) (s s' : StakingContract) :
      internal_withdraw env amount s = some s' → StepNoWrap s s'
  | stake (env : StakeEnv) (amount : Nat) (s s' : StakingContract) :
      internal_stake env amount s = some s' → StakeNoWrap amount s → StepNoWrap s s'
  | unstake (env : StakeEnv) (amount : Nat) (s s' : StakingContract) :
      inner_unstake env amount s = some s' → UnstakeNoWrap amount s → StepNoWrap s s'
  | ping (env : StakeEnv) (s s' : StakingContract) (b : Bool) :
      internal_ping env s = some (s', b) → PingNoWrap env s → StepNoWrap s s'
  | setFee (s : StakingContract) (f : RewardFeeFraction) :
      f.numerator ≤ f.denominator → 0 < f.denominator →
      StepNoWrap s { s with reward_fee_fraction := f }

/-- States reachable through wrap-free transitions only. -/
def ReachableNoWrap (s : StakingContract) : Prop :=
  ∃ s0, InitState s0 ∧ Relation.ReflTransGen StepNoWrap s0 s

/-- The inductive invariant of the pool accounting: totals are `u128` values,
the staked total dominates the share total, the fee fraction is valid, and no
single account holds as many shares as the pool total (with all share
balances zero while the share total is zero). -/
def PoolInv (s : StakingContract) : Prop :=
  s.total_staked_balance < U128MOD ∧
  s.total_stake_shares < U128MOD ∧
  s.total_stake_shares ≤ s.total_staked_balance ∧
  s.reward_fee_fraction.numerator ≤ s.reward_fee_fraction.denominator ∧
  0 < s.reward_fee_fraction.denominator ∧
  ∀ id, (s.accounts id).stake_shares < s.total_stake_shares ∨
    (s.total_stake_shares = 0 ∧ (s.accounts id).stake_shares = 0)

/-! ## Staking pool: invariant preservation -/

@[simp] theorem internal_save_account_total_staked_balance (s : StakingContract)
    (id : String) (a : Account) :
    (internal_save_account s id a).total_staked_balance = s.total_staked_balance := by
  unfold internal_save_account; split <;> rfl

@[simp] theorem internal_save_account_total_stake_shares (s : StakingContract)
    (id : String) (a : Account) :
    (internal_save_account s id a).total_stake_shares = s.total_stake_shares := by
  unfold internal_save_account; split <;> rfl

@[simp] theorem internal_save_account_reward_fee_fraction (s : StakingContract)
    (id : String) (a : Account) :
    (internal_save_account s id a).reward_fee_fraction = s.reward_fee_fraction := by
  unfold internal_save_account; split <;> rfl

@[simp] theorem internal_save_account_owner_id (s : StakingContract)
    (id : String) (a : Account) :
    (internal_save_account s id a).owner_id = s.owner_id := by
  unfold internal_save_account; split <;> rfl

@[simp] theorem internal_save_account_last_total_balance (s : StakingContract)
    (id : String) (a : Account) :
    (internal_save_account s id a).last_total_balance = s.last_total_balance := by
  unfold internal_save_account; split <;> rfl

@[simp] theorem internal_save_account_last_epoch_height (s : StakingContract)
    (id : String) (a : Account) :
    (internal_save_account s id a).last_epoch_height = s.last_epoch_height := by
  unfold internal_save_account; split <;> rfl

/-- After a save, any stored share balance is the untouched one, the saved
account's, or zero (deleted entry). -/
theorem internal_save_account_shares (s : StakingContract) (id : String)
    (a : Account) (id' : String) :
    ((internal_save_account s id a).accounts id').stake_shares
        = (s.accounts id').stake_shares ∨
    ((internal_save_account s id a).accounts id').stake_shares = a.stake_shares ∨
    ((internal_save_account s id a).accounts id').stake_shares = 0 := by
  unfold internal_save_account
  by_cases hc : 0 < a.unstaked ∨ 0 < a.stake_shares <;>
    by_cases hid : id' = id <;> simp [hc, hid, Account.new]

/-- Saving an account whose share balance is below a positive bound keeps
every stored share balance below that bound. -/
theorem internal_save_account_shares_lt (s : StakingContract) (id : String)
    (a : Account) (bound : Nat) (hb : 0 < bound)
    (hold : ∀ id', (s.accounts id').stake_shares < bound)
    (ha : a.stake_shares < bound) :
    ∀ id', ((internal_save_account s id a).accounts id').stake_shares < bound := by
  intro id'
  rcases internal_save_account_shares s id a id' with hc | hc | hc <;> rw [hc]
  · exact hold id'
  · exact ha
  · exact hb

theorem stake_preserves_inv {env : StakeEnv} {amount : Nat} {s s' : StakingContract}
    (hInv : PoolInv s) (h : internal_stake env amount s = some s')
    (hnw : StakeNoWrap amount s) :
    PoolInv s' ∧ (0 < s.total_stake_shares →
      0 < s'.total_stake_shares ∧
      s.total_staked_balance * s'.total_stake_shares ≤
        s'.total_staked_balance * s.total_stake_shares) := by
  obtain ⟨hTM, hSM, hST, hfee1, hfee2, hacct⟩ := hInv
  by_cases hA : amount = 0
  · simp [internal_stake, hA] at h
  by_cases hT0 : s.total_staked_balance = 0
  · simp [internal_stake, num_shares_from_staked_amount_rounded_down, hA, hT0] at h
  by_cases hns : mul128 amount (s.total_stake_shares / s.total_staked_balance) = 0
  · simp [internal_stake, num_shares_from_staked_amount_rounded_down, hA, hT0, hns] at h
  by_cases hS0 : s.total_stake_shares = 0
  · simp [internal_stake, num_shares_from_staked_amount_rounded_down,
      staked_amount_from_num_shares_rounded_down, hA, hT0, hns, hS0] at h
  by_cases hch : mul128 (mul128 amount (s.total_stake_shares / s.total_staked_balance))
      (s.total_staked_balance / s.total_stake_shares) = 0
  · simp [internal_stake, num_shares_from_staked_amount_rounded_down,
      staked_amount_from_num_shares_rounded_down, hA, hT0, hns, hS0, hch] at h
  by_cases hun : (s.accounts env.predecessor).unstaked <
      mul128 (mul128 amount (s.total_stake_shares / s.total_staked_balance))
        (s.total_staked_balance / s.total_stake_shares)
  · simp [internal_stake, internal_get_account, num_shares_from_staked_amount_rounded_down,
      staked_amount_from_num_shares_rounded_down,
      staked_amount_from_num_shares_rounded_up, hA, hT0, hns, hS0, hch, hun] at h
  simp only [internal_stake, internal_get_account,
    num_shares_from_staked_amount_rounded_down,
    staked_amount_from_num_shares_rounded_down,
    staked_amount_from_num_shares_rounded_up,
    internal_save_account_total_staked_balance,
    internal_save_account_total_stake_shares,
    if_neg hA, if_neg hT0, if_neg hns, if_neg hS0, if_neg hch, if_neg hun,
    Option.some.injEq] at h
  -- the guards force the two totals to be equal
  have hTpos : 0 < s.total_staked_balance := Nat.pos_of_ne_zero hT0
  have hSpos : 0 < s.total_stake_shares := Nat.pos_of_ne_zero hS0
  have hdivST : 0 < s.total_stake_shares / s.total_staked_balance := by
    rcases Nat.eq_zero_or_pos (s.total_stake_shares / s.total_staked_balance) with h0 | h0
    · exact absurd (by simp [mul128, h0]) hns
    · exact h0
  have hdivTS : 0 < s.total_staked_balance / s.total_stake_shares := by
    rcases Nat.eq_zero_or_pos (s.total_staked_balance / s.total_stake_shares) with h0 | h0
    · exact absurd (by simp [mul128, h0]) hch
    · exact h0
  have hTS : s.total_staked_balance = s.total_stake_shares :=
    Nat.le_antisymm ((Nat.one_le_div_iff hTpos).1 hdivST)
      ((Nat.one_le_div_iff hSpos).1 hdivTS)
  have hq1 : s.total_stake_shares / s.total_staked_balance = 1 := by
    rw [hTS, Nat.div_self hSpos]
  obtain ⟨hnw1, hnw2⟩ := hnw
  simp only [hq1, Nat.mul_one] at hnw1 hnw2
  have hamM : amount < U128MOD := by omega
  have hnsval : mul128 amount (s.total_stake_shares / s.total_staked_balance) = amount := by
    simp only [mul128, hq1, Nat.mul_one]
    exact Nat.mod_eq_of_lt hamM
  have hTaM : s.total_staked_balance * amount < U128MOD := by
    nlinarith [hnw1]
  have hq0 : sub128 s.total_stake_shares 1 / s.total_stake_shares = 0 := by
    rw [sub128_eq_of_le hSpos hSM]
    exact Nat.div_eq_of_lt (by omega)
  have hstakeamt : add128 (mul128 s.total_staked_balance amount)
      (sub128 s.total_stake_shares 1 / s.total_stake_shares)
      = s.total_staked_balance * amount := by
    rw [hq0, mul128_eq_of_lt hTaM, add128_eq_of_lt (by omega)]
    omega
  rw [hnsval] at h
  rw [hstakeamt] at h
  subst h
  have hT' : add128 (s.total_staked_balance * amount) s.total_staked_balance
      = s.total_staked_balance * amount + s.total_staked_balance := by
    exact add128_eq_of_lt (by omega)
  have hS' : add128 amount s.total_stake_shares
      = amount + s.total_stake_shares := by
    exact add128_eq_of_lt (by omega)
  simp only [PoolInv, internal_save_account_total_staked_balance,
    internal_save_account_total_stake_shares,
    internal_save_account_reward_fee_fraction, hT', hS']
  have hpred : (s.accounts env.predecessor).stake_shares < s.total_stake_shares := by
    rcases hacct env.predecessor with hc | hc
    · exact hc
    · exact absurd hc.1 hS0
  have hmul1 : amount ≤ s.total_staked_balance * amount :=
    Nat.le_mul_of_pos_left amount hTpos
  have hr1 : s.total_staked_balance * (amount + s.total_stake_shares)
      = s.total_staked_balance * amount
        + s.total_staked_balance * s.total_stake_shares := by ring
  have hr2 : (s.total_staked_balance * amount + s.total_staked_balance)
        * s.total_stake_shares
      = s.total_staked_balance * amount * s.total_stake_shares
        + s.total_staked_balance * s.total_stake_shares := by ring
  have hmul2 : s.total_staked_balance * amount
      ≤ s.total_staked_balance * amount * s.total_stake_shares :=
    Nat.le_mul_of_pos_right _ hSpos
  refine ⟨⟨by omega, by omega, by omega, hfee1, hfee2, ?_⟩, ?_⟩
  · intro id
    refine Or.inl ?_
    refine internal_save_account_shares_lt s env.predecessor _
      (amount + s.total_stake_shares) (by omega) ?_ ?_ id
    · intro id'
      rcases hacct id' with hc | hc
      · omega
      · exact absurd hc.1 hS0
    · show add128 amount (s.accounts env.predecessor).stake_shares
        < amount + s.total_stake_shares
      rw [add128_eq_of_lt (by omega)]
      omega
  · intro hSp
    exact ⟨by omega, by omega⟩

/-- Under the pool invariant, a wrap-free `inner_unstake` always hits one of
its asserts: no account ever holds `total_stake_shares * amount` shares. -/
theorem unstake_aborts {env : StakeEnv} {amount : Nat} {s : StakingContract}
    (hInv : PoolInv s) (hnw : UnstakeNoWrap amount s) :
    inner_unstake env amount s = none := by
  obtain ⟨hTM, hSM, hST, _, _, hacct⟩ := hInv
  by_cases hA : amount = 0
  · simp [inner_unstake, hA]
  by_cases hT0 : s.total_staked_balance = 0
  · simp [inner_unstake, hA, hT0]
  have hTpos : 0 < s.total_staked_balance := Nat.pos_of_ne_zero hT0
  have hq0 : sub128 s.total_staked_balance 1 / s.total_staked_balance = 0 := by
    rw [sub128_eq_of_le hTpos hTM]
    exact Nat.div_eq_of_lt (by omega)
  have hnw' : s.total_stake_shares * amount < U128MOD := hnw
  have hnsv : add128 (mul128 s.total_stake_shares amount)
      (sub128 s.total_staked_balance 1 / s.total_staked_balance)
      = s.total_stake_shares * amount := by
    rw [hq0, mul128_eq_of_lt hnw', add128_eq_of_lt (by omega)]
    omega
  by_cases hS0 : s.total_stake_shares = 0
  · simp [inner_unstake, num_shares_from_staked_amount_rounded_up, hA, hT0, hS0,
      hq0, mul128, add128]
  · have hSpos : 0 < s.total_stake_shares := Nat.pos_of_ne_zero hS0
    have hpred : (s.accounts env.predecessor).stake_shares < s.total_stake_shares := by
      rcases hacct env.predecessor with hc | hc
      · exact hc
      · exact absurd hc.1 hS0
    have hlt : (s.accounts env.predecessor).stake_shares
        < s.total_stake_shares * amount :=
      lt_of_lt_of_le hpred
        (Nat.le_mul_of_pos_right _ (Nat.pos_of_ne_zero hA))
    have hnspos : ¬ s.total_stake_shares * amount = 0 := by
      have := Nat.mul_pos hSpos (Nat.pos_of_ne_zero hA)
      omega
    simp [inner_unstake, num_shares_from_staked_amount_rounded_up,
      internal_get_account, hA, hT0, hnsv, hnspos, hlt]

theorem ping_preserves_inv {env : StakeEnv} {s s' : StakingContract} {b : Bool}
    (hInv : PoolInv s) (h : internal_ping env s = some (s', b))
    (hnw : PingNoWrap env s) :
    PoolInv s' ∧ (0 < s.total_stake_shares →
      0 < s'.total_stake_shares ∧
      s.total_staked_balance * s'.total_stake_shares ≤
        s'.total_staked_balance * s.total_stake_shares) := by
  obtain ⟨hTM, hSM, hST, hfee1, hfee2, hacct⟩ := hInv
  obtain ⟨hw1, hw2, hw3, hw4, hw5⟩ := hnw
  have hw2' : env.accountLockedBalance + (env.accountBalance - env.attachedDeposit)
      < U128MOD := hw2
  by_cases hep : s.last_epoch_height = env.epochHeight
  · simp [internal_ping, hep] at h
    obtain ⟨rfl, rfl⟩ := h
    exact ⟨⟨hTM, hSM, hST, hfee1, hfee2, hacct⟩, fun hSp => ⟨hSp, le_refl _⟩⟩
  have etb : add128 env.accountLockedBalance
      (sub128 env.accountBalance env.attachedDeposit) = pingTotalBalance env := by
    unfold pingTotalBalance
    rw [sub128_eq_sub hw1 (by omega), add128_eq_of_lt (by omega)]
  simp only [internal_ping, etb, if_neg hep] at h
  by_cases hlt : pingTotalBalance env < s.last_total_balance
  · simp [hlt] at h
  have hge : s.last_total_balance ≤ pingTotalBalance env := Nat.le_of_not_lt hlt
  have hrM : pingReward env s < U128MOD := by
    unfold pingReward
    omega
  have erw : sub128 (pingTotalBalance env) s.last_total_balance
      = pingReward env s := by
    unfold pingReward
    exact sub128_eq_sub hge (by omega)
  simp only [erw, if_neg hlt] at h
  by_cases hr0 : 0 < pingReward env s
  case neg =>
    simp only [if_neg hr0] at h
    simp only [Option.some.injEq, Prod.mk.injEq] at h
    obtain ⟨rfl, rfl⟩ := h
    exact ⟨⟨hTM, hSM, hST, hfee1, hfee2, hacct⟩, fun hSp => ⟨hSp, le_refl _⟩⟩
  case pos =>
  have hq : s.reward_fee_fraction.numerator / s.reward_fee_fraction.denominator ≤ 1 := by
    calc s.reward_fee_fraction.numerator / s.reward_fee_fraction.denominator
        ≤ s.reward_fee_fraction.denominator / s.reward_fee_fraction.denominator :=
          Nat.div_le_div_right hfee1
      _ = 1 := Nat.div_self hfee2
  have hfee_le : pingFee env s ≤ pingReward env s := by
    unfold pingFee
    calc pingReward env s *
          (s.reward_fee_fraction.numerator / s.reward_fee_fraction.denominator)
        ≤ pingReward env s * 1 := Nat.mul_le_mul_left _ hq
      _ = pingReward env s := Nat.mul_one _
  have hfeeM : pingFee env s < U128MOD := lt_of_le_of_lt hfee_le hrM
  have ef : RewardFeeFraction.multiply s.reward_fee_fraction (pingReward env s)
      = pingFee env s := by
    unfold RewardFeeFraction.multiply pingFee
    exact mul128_eq_of_lt hfeeM
  have erem : sub128 (pingReward env s) (pingFee env s)
      = pingReward env s - pingFee env s :=
    sub128_eq_sub hfee_le (by omega)
  have hw3' : (pingReward env s - pingFee env s) + s.total_staked_balance
      < U128MOD := hw3
  have egrown : add128 (pingReward env s - pingFee env s) s.total_staked_balance
      = pingGrown env s := by
    unfold pingGrown
    exact add128_eq_of_lt hw3'
  simp only [if_pos hr0, ef, erem, egrown,
    num_shares_from_staked_amount_rounded_down] at h
  by_cases hg0 : pingGrown env s = 0
  · simp [hg0] at h
  simp only [if_neg hg0] at h
  have hw5' : s.total_stake_shares
      + pingFee env s * (s.total_stake_shares / pingGrown env s) < U128MOD := hw5
  have ens : mul128 (pingFee env s) (s.total_stake_shares / pingGrown env s)
      = pingFee env s * (s.total_stake_shares / pingGrown env s) :=
    mul128_eq_of_lt (by omega)
  simp only [ens] at h
  have hw4' : pingGrown env s + pingFee env s < U128MOD := hw4
  have egf : add128 (pingGrown env s) (pingFee env s)
      = pingGrown env s + pingFee env s := add128_eq_of_lt hw4'
  have hTg : s.total_staked_balance ≤ pingGrown env s := by
    unfold pingGrown
    omega
  by_cases hns0 : 0 < pingFee env s * (s.total_stake_shares / pingGrown env s)
  case neg =>
    simp only [if_neg hns0, egf, Option.some.injEq, Prod.mk.injEq] at h
    obtain ⟨rfl, rfl⟩ := h
    refine ⟨⟨?_, ?_, ?_, hfee1, hfee2, hacct⟩, ?_⟩
    · show pingGrown env s + pingFee env s < U128MOD
      omega
    · show s.total_stake_shares < U128MOD
      exact hSM
    · show s.total_stake_shares ≤ pingGrown env s + pingFee env s
      omega
    · intro hSp
      refine ⟨hSp, ?_⟩
      show s.total_staked_balance * s.total_stake_shares
        ≤ (pingGrown env s + pingFee env s) * s.total_stake_shares
      exact Nat.mul_le_mul_right _ (by omega)
  case pos =>
  have hgpos : 0 < pingGrown env s := Nat.pos_of_ne_zero hg0
  have hdiv : 0 < s.total_stake_shares / pingGrown env s := by
    rcases Nat.eq_zero_or_pos (s.total_stake_shares / pingGrown env s) with h0 | h0
    · rw [h0, Nat.mul_zero] at hns0
      exact absurd hns0 (lt_irrefl 0)
    · exact h0
  have hgle : pingGrown env s ≤ s.total_stake_shares :=
    (Nat.one_le_div_iff hgpos).1 hdiv
  have hSpos : 0 < s.total_stake_shares := by omega
  have hgS : pingGrown env s = s.total_stake_shares := by omega
  have hTS : s.total_staked_balance = s.total_stake_shares := by omega
  have hdiv1 : s.total_stake_shares / pingGrown env s = 1 := by
    rw [hgS, Nat.div_self hSpos]
  rw [hdiv1, Nat.mul_one] at hns0 hw5' h
  have eS' : add128 (pingFee env s) s.total_stake_shares
      = pingFee env s + s.total_stake_shares := add128_eq_of_lt (by omega)
  simp only [if_pos hns0, egf, eS', internal_get_account,
    internal_save_account_total_staked_balance,
    internal_save_account_total_stake_shares,
    internal_save_account_reward_fee_fraction,
    internal_save_account_owner_id,
    internal_save_account_last_total_balance,
    internal_save_account_last_epoch_height,
    Option.some.injEq, Prod.mk.injEq] at h
  obtain ⟨rfl, rfl⟩ := h
  have hbound : 0 < pingFee env s + s.total_stake_shares := by omega
  refine ⟨⟨?_, ?_, ?_, hfee1, hfee2, ?_⟩, ?_⟩
  · show pingGrown env s + pingFee env s < U128MOD
    omega
  · show pingFee env s + s.total_stake_shares < U128MOD
    omega
  · show pingFee env s + s.total_stake_shares ≤ pingGrown env s + pingFee env s
    omega
  · intro id
    refine Or.inl ?_
    refine internal_save_account_shares_lt _ _ _
      (pingFee env s + s.total_stake_shares) hbound ?_ ?_ id
    · intro id'
      show (s.accounts id').stake_shares < pingFee env s + s.total_stake_shares
      rcases hacct id' with hc | hc
      · omega
      · omega
    · show add128 (pingFee env s) (s.accounts s.owner_id).stake_shares
        < pingFee env s + s.total_stake_shares
      have howner : (s.accounts s.owner_id).stake_shares < s.total_stake_shares := by
        rcases hacct s.owner_id with hc | hc
        · exact hc
        · omega
      rw [add128_eq_of_lt (by omega)]
      omega
  · intro hSp
    constructor
    · show 0 < pingFee env s + s.total_stake_shares
      omega
    · show s.total_staked_balance * (pingFee env s + s.total_stake_shares)
        ≤ (pingGrown env s + pingFee env s) * s.total_stake_shares
      have heq : s.total_staked_balance * (pingFee env s + s.total_stake_shares)
          = (pingGrown env s + pingFee env s) * s.total_stake_shares := by
        rw [hTS, hgS]
        ring
      exact le_of_eq heq

/-- Saving an account whose share balance satisfies the invariant's account
clause keeps the clause for every stored account. -/
theorem save_shares_clause {s : StakingContract}
    (hacct : ∀ id, (s.accounts id).stake_shares < s.total_stake_shares ∨
      (s.total_stake_shares = 0 ∧ (s.accounts id).stake_shares = 0))
    (id : String) (a : Account)
    (ha : a.stake_shares < s.total_stake_shares ∨
      (s.total_stake_shares = 0 ∧ a.stake_shares = 0)) :
    ∀ id', ((internal_save_account s id a).accounts id').stake_shares
        < s.total_stake_shares ∨
      (s.total_stake_shares = 0 ∧
        ((internal_save_account s id a).accounts id').stake_shares = 0) := by
  intro id'
  rcases internal_save_account_shares s id a id' with hc | hc | hc <;> rw [hc]
  · exact hacct id'
  · exact ha
  · rcases Nat.eq_zero_or_pos s.total_stake_shares with h0 | h0
    · exact Or.inr ⟨h0, rfl⟩
    · exact Or.inl h0

theorem deposit_preserves_inv {env : StakeEnv} {s : StakingContract}
    (hInv : PoolInv s) :
    PoolInv (internal_deposit env s).1 ∧
      (internal_deposit env s).1.total_stake_shares = s.total_stake_shares ∧
      (internal_deposit env s).1.total_staked_balance = s.total_staked_balance := by
  obtain ⟨hTM, hSM, hST, hf1, hf2, hacct⟩ := hInv
  simp only [PoolInv, internal_deposit, internal_get_account,
    internal_save_account_total_staked_balance,
    internal_save_account_total_stake_shares,
    internal_save_account_reward_fee_fraction]
  refine ⟨⟨hTM, hSM, hST, hf1, hf2, ?_⟩, trivial, trivial⟩
  exact save_shares_clause hacct env.predecessor _ (hacct env.predecessor)

theorem withdraw_preserves_inv {env : StakeEnv} {amount : Nat}
    {s s' : StakingContract} (hInv : PoolInv s)
    (h : internal_withdraw env amount s = some s') :
    PoolInv s' ∧ s'.total_stake_shares = s.total_stake_shares ∧
      s'.total_staked_balance = s.total_staked_balance := by
  obtain ⟨hTM, hSM, hST, hf1, hf2, hacct⟩ := hInv
  by_cases hA : amount = 0
  · simp [internal_withdraw, hA] at h
  by_cases hu : (s.accounts env.predecessor).unstaked < amount
  · simp [internal_withdraw, internal_get_account, hA, hu] at h
  by_cases he : env.epochHeight < (s.accounts env.predecessor).unstaked_available_epoch_height
  · simp [internal_withdraw, internal_get_account, hA, hu, he] at h
  simp only [internal_withdraw, internal_get_account, if_neg hA, if_neg hu, if_neg he,
    Option.some.injEq] at h
  subst h
  simp only [PoolInv, internal_save_account_total_staked_balance,
    internal_save_account_total_stake_shares,
    internal_save_account_reward_fee_fraction]
  refine ⟨⟨hTM, hSM, hST, hf1, hf2, ?_⟩, trivial, trivial⟩
  exact save_shares_clause hacct env.predecessor _ (hacct env.predecessor)

theorem init_inv {s : StakingContract} (hinit : InitState s) : PoolInv s := by
  obtain ⟨owner, fee, env, h⟩ := hinit
  by_cases h1 : fee.denominator = 0
  · simp [StakingContract.init, h1] at h
  by_cases h2 : fee.denominator < fee.numerator
  · simp [StakingContract.init, h1, h2] at h
  by_cases h3 : env.accountLockedBalance = 0
  · simp [StakingContract.init, h1, h2, h3] at h
  simp only [StakingContract.init, if_neg h1, if_neg h2, if_neg h3,
    Option.some.injEq] at h
  subst h
  refine ⟨sub128_lt _ _, sub128_lt _ _, le_refl _, ?_, ?_, ?_⟩
  · show fee.numerator ≤ fee.denominator
    omega
  · show 0 < fee.denominator
    omega
  intro id
  rcases Nat.eq_zero_or_pos
      (sub128 env.accountBalance STAKE_SHARE_PRICE_GUARANTEE_FUND) with h0 | h0
  · exact Or.inr ⟨h0, rfl⟩
  · exact Or.inl h0

/-- Every wrap-free transition preserves the pool invariant and never lowers
the share price. -/
theorem stepNoWrap_preserves {s s' : StakingContract} (hInv : PoolInv s)
    (hst : StepNoWrap s s') :
    PoolInv s' ∧ (0 < s.total_stake_shares →
      0 < s'.total_stake_shares ∧
      s.total_staked_balance * s'.total_stake_shares ≤
        s'.total_staked_balance * s.total_stake_shares) := by
  cases hst with
  | deposit env s =>
      obtain ⟨hi, hS, hT⟩ := @deposit_preserves_inv env s hInv
      exact ⟨hi, fun hSp => ⟨by omega, by rw [hS, hT]⟩⟩
  | withdraw env amount s s' h =>
      obtain ⟨hi, hS, hT⟩ := withdraw_preserves_inv hInv h
      exact ⟨hi, fun hSp => ⟨by omega, by rw [hS, hT]⟩⟩
  | stake env amount s s' h hnw =>
      exact stake_preserves_inv hInv h hnw
  | unstake env amount s s' h hnw =>
      rw [unstake_aborts hInv hnw] at h
      exact Option.noConfusion h
  | ping env s s' b h hnw =>
      exact ping_preserves_inv hInv h hnw
  | setFee s f hf1 hf2 =>
      obtain ⟨hTM, hSM, hST, _, _, hacct⟩ := hInv
      exact ⟨⟨hTM, hSM, hST, hf1, hf2, hacct⟩, fun hSp => ⟨hSp, le_refl _⟩⟩

/-- Every state reachable through wrap-free transitions satisfies the pool
invariant. -/
theorem reachableNoWrap_inv {s : StakingContract} (h : ReachableNoWrap s) :
    PoolInv s := by
  obtain ⟨s0, hinit, hsteps⟩ := h
  induction hsteps with
  | refl => exact init_inv hinit
  | tail _ hstep ih => exact (stepNoWrap_preserves ih hstep).1

/-! ## Staking pool: concrete states for claim checks -/

/-- A pool state with the given totals, a 1/10 fee, and no accounts. -/
def mkPool (total_staked_balance total_stake_shares : Nat) : StakingContract :=
  { owner_id := "owner"
    last_epoch_height := 0
    last_total_balance := 0
    total_stake_shares := total_stake_shares
    total_staked_balance := total_staked_balance
    reward_fee_fraction := ⟨1, 10⟩
    accounts := fun _ => Account.new
    paused := false }

/-- A pool state with the given totals and one stored account. -/
def mkPoolWith (total_staked_balance total_stake_shares : Nat) (id : String)
    (a : Account) : StakingContract :=
  { mkPool total_staked_balance total_stake_shares with
    accounts := fun x => if x = id then a else Account.new }

/-- Init environment for the C1 witness: balance one above the guarantee fund. -/
def c1wEnv : StakeEnv :=
  ⟨"owner", 0, STAKE_SHARE_PRICE_GUARANTEE_FUND + 1, 1, 0⟩

/-- The genesis state the C1 witness starts from (price 1/1). -/
def c1wInit : StakingContract :=
  { owner_id := "owner"
    last_epoch_height := 0
    last_total_balance := STAKE_SHARE_PRICE_GUARANTEE_FUND + 1
    total_stake_shares :=
      sub128 (STAKE_SHARE_PRICE_GUARANTEE_FUND + 1) STAKE_SHARE_PRICE_GUARANTEE_FUND
    total_staked_balance :=
      sub128 (STAKE_SHARE_PRICE_GUARANTEE_FUND + 1) STAKE_SHARE_PRICE_GUARANTEE_FUND
    reward_fee_fraction := ⟨1, 10⟩
    accounts := fun _ => Account.new
    paused := false }

/-- Deposit environment used by the C1 witness step. -/
def c1wEnvDep : StakeEnv := ⟨"alice", 5, 0, 0, 0⟩

/-- Init environment of the C1 counterexample: genesis totals 2^127. -/
def c1xEnvInit : StakeEnv :=
  ⟨"owner", 0, 2 ^ 127 + STAKE_SHARE_PRICE_GUARANTEE_FUND, 1, 0⟩

/-- Genesis state of the C1 counterexample: price 1 at totals 2^127. -/
def c1xInit : StakingContract :=
  { owner_id := "owner"
    last_epoch_height := 0
    last_total_balance := 2 ^ 127 + STAKE_SHARE_PRICE_GUARANTEE_FUND
    total_stake_shares :=
      sub128 (2 ^ 127 + STAKE_SHARE_PRICE_GUARANTEE_FUND) STAKE_SHARE_PRICE_GUARANTEE_FUND
    total_staked_balance :=
      sub128 (2 ^ 127 + STAKE_SHARE_PRICE_GUARANTEE_FUND) STAKE_SHARE_PRICE_GUARANTEE_FUND
    reward_fee_fraction := ⟨1, 10⟩
    accounts := fun _ => Account.new
    paused := false }

/-- Deposit env for the C1 counterexample: alice attaches 1. -/
def c1xEnvDep : StakeEnv := ⟨"alice", 1, 0, 0, 0⟩

/-- Stake env for the C1 counterexample. -/
def c1xEnvStake : StakeEnv := ⟨"alice", 0, 0, 0, 0⟩

/-- State after alice's deposit in the C1 counterexample. -/
def c1xS1 : StakingContract := (internal_deposit c1xEnvDep c1xInit).1

/-- State after alice's `stake(1)` in the C1 counterexample: the pool's
`total_staked_balance` wraps to 0 while `total_stake_shares` becomes 2^127+1. -/
def c1xS2 : StakingContract := (internal_stake c1xEnvStake 1 c1xS1).getD c1xS1

/-- C1 (counterexample): from the reachable state with
`total_staked_balance = total_stake_shares = 2^127` and alice holding one
unstaked token, `stake(1)` succeeds and the share price drops from 1 to 0: the
`u128.add` on `total_staked_balance` wraps to zero.  This refutes the claim
that the price never decreases across stake operations from reachable
states. -/
theorem c1_counterexample :
    Reachable c1xS1 ∧
    internal_stake c1xEnvStake 1 c1xS1 = some c1xS2 ∧
    0 < c1xS1.total_stake_shares ∧
    c1xS2.total_staked_balance * c1xS1.total_stake_shares <
      c1xS1.total_staked_balance * c1xS2.total_stake_shares := by
  refine ⟨⟨c1xInit, ⟨"owner", ⟨1, 10⟩, c1xEnvInit, rfl⟩,
    Relation.ReflTransGen.single (Step.deposit c1xEnvDep c1xInit)⟩, rfl, ?_, ?_⟩
  · decide
  · decide

/-- C1 (amended): along wrap-free executions — no `u128` operation feeding the
pool totals overflows 2^128 — the share price `total_staked_balance /
total_stake_shares`, compared as an exact rational, never decreases from one
stake / unstake / reward-ping operation to the next, starting from any
reachable state. -/
theorem c1_price_monotone_no_wrap {s s' : StakingContract}
    (hreach : ReachableNoWrap s) (hstep : StepNoWrap s s')
    (hS : 0 < s.total_stake_shares) :
    0 < s'.total_stake_shares ∧
    s.total_staked_balance * s'.total_stake_shares ≤
      s'.total_staked_balance * s.total_stake_shares :=
  (stepNoWrap_preserves (reachableNoWrap_inv hreach) hstep).2 hS

/-- Witness for C1 (amended) at a concrete reachable genesis state and a
deposit step. -/
theorem c1_price_monotone_no_wrap_witness :
    0 < c1wInit.total_stake_shares ∧
    (0 < (internal_deposit c1wEnvDep c1wInit).1.total_stake_shares ∧
      c1wInit.total_staked_balance
          * (internal_deposit c1wEnvDep c1wInit).1.total_stake_shares ≤
        (internal_deposit c1wEnvDep c1wInit).1.total_staked_balance
          * c1wInit.total_stake_shares) :=
  ⟨by decide,
    c1_price_monotone_no_wrap
      ⟨c1wInit, ⟨"owner", ⟨1, 10⟩, c1wEnv, rfl⟩, Relation.ReflTransGen.refl⟩
      (StepNoWrap.deposit c1wEnvDep c1wInit) (by decide)⟩

/-- C2: the floor conversion as implemented divides before multiplying.  At
`total_staked_balance = 2`, `total_stake_shares = 3`, `amount = 3` it returns
`3 * (3 / 2) = 3`, whereas `floor(amount * total_stake_shares /
total_staked_balance) = floor(9 / 2) = 4`. -/
theorem c2_rounded_down_divides_first :
    num_shares_from_staked_amount_rounded_down (mkPool 2 3) 3 = some 3 ∧
    ¬ (3 : Nat) = 3 * 3 / 2 := by
  constructor
  · decide
  · decide

/-- C3: neither ceil conversion computes
`floor((numerator + divisor - 1) / divisor)`; the source adds the quotient
`(divisor - 1) / divisor` (which is 0) to the raw product instead of dividing.
At totals (3, 2) with `amount = 1`, the share conversion returns `2`, but
`floor((1 * 2 + 3 - 1) / 3) = 1`; at totals (2, 3) with `num_shares = 1`, the
amount conversion returns `2`, but `floor((1 * 2 + 3 - 1) / 3) = 1`. -/
theorem c3_rounded_up_not_ceil :
    num_shares_from_staked_amount_rounded_up (mkPool 3 2) 1 = some 2 ∧
    ¬ (2 : Nat) = (1 * 2 + (3 - 1)) / 3 ∧
    staked_amount_from_num_shares_rounded_up (mkPool 2 3) 1 = some 2 ∧
    ¬ (2 : Nat) = (1 * 2 + (3 - 1)) / 3 := by
  refine ⟨by decide, by decide, by decide, by decide⟩

/-- Pool state for the C4 check: price 1 at totals (5, 5), alice holds 3
unstaked tokens. -/
def c4State : StakingContract := mkPoolWith 5 5 "alice" ⟨3, 0, 0⟩

/-- Call environment for the C4 check. -/
def c4Env : StakeEnv := ⟨"alice", 0, 0, 0, 0⟩

/-- Result state of `stake(2)` in the C4 check. -/
def c4After : StakingContract := (internal_stake c4Env 2 c4State).getD c4State

/-- C4: `internal_stake` writes `u128.sub(charge_amount, account.unstaked)`
with the operands swapped.  With alice holding 3 unstaked and `charge = 2`,
her unstaked balance becomes `2 - 3` wrapped, i.e. `2^128 - 1`, not
`3 - 2 = 1` as the claim states.  (The pool totals do increase by the ceiling
amount and by the shares, and her shares increase by `shares`.) -/
theorem c4_stake_swapped_subtraction :
    internal_stake c4Env 2 c4State = some c4After ∧
    (c4After.accounts "alice").unstaked = U128MOD - 1 ∧
    ¬ (c4After.accounts "alice").unstaked = 3 - 2 ∧
    (c4After.accounts "alice").stake_shares = 2 ∧
    c4After.total_staked_balance = 15 ∧
    c4After.total_stake_shares = 7 := by
  refine ⟨rfl, by decide, by decide, by decide, by decide, by decide⟩

/-- Pool state for the C5 check: price 1 at totals (2, 2), alice holds 3
stake shares. -/
def c5State : StakingContract := mkPoolWith 2 2 "alice" ⟨0, 3, 0⟩

/-- Call environment for the C5 check (epoch 7). -/
def c5Env : StakeEnv := ⟨"alice", 0, 0, 0, 7⟩

/-- Result state of `unstake(1)` in the C5 check. -/
def c5After : StakingContract := (inner_unstake c5Env 1 c5State).getD c5State

/-- C5: `inner_unstake` adds to both pool totals instead of subtracting, and
subtracts the account's shares from `num_shares` instead of the reverse.
With totals (2, 2), alice holding 3 shares and `unstake(1)` (so
`num_shares = 2`), both totals become 4 instead of 0, and alice's shares wrap
to `2^128 - 1` instead of `3 - 2 = 1`.  Her unstaked credit (4) and the
unlock epoch (7 + 4) do match the claim. -/
theorem c5_unstake_adds_to_totals :
    inner_unstake c5Env 1 c5State = some c5After ∧
    c5After.total_staked_balance = 4 ∧
    c5After.total_stake_shares = 4 ∧
    ¬ c5After.total_staked_balance = 0 ∧
    (c5After.accounts "alice").stake_shares = U128MOD - 1 ∧
    (c5After.accounts "alice").unstaked = 4 ∧
    (c5After.accounts "alice").unstaked_available_epoch_height = 11 := by
  refine ⟨rfl, by decide, by decide, by decide, by decide, by decide, by decide⟩

/-- Pool state of the spec's reward scenario (C6). -/
def c6State : StakingContract :=
  { mkPool 1000100 1000100 with last_total_balance := 3000000 }

/-- Ping environment of the C6 scenario: a new epoch and a balance 300 above
`last_total_balance`. -/
def c6Env : StakeEnv := ⟨"caller", 0, 0, 3000300, 1⟩

/-- Result of `internal_ping` in the C6 scenario. -/
def c6Res : StakingContract × Bool :=
  (internal_ping c6Env c6State).getD (c6State, false)

/-- C6: in the spec's scenario the owner fee comes out as
`300 * floor(1 / 10) = 0`, not `floor(300 * 1 / 10) = 30`
(`RewardFeeFraction.multiply` divides before multiplying).  The whole 300 is
credited to `total_staked_balance` (1 000 400), the owner receives no shares,
and `total_stake_shares` stays 1 000 100. -/
theorem c6_ping_fee_is_zero :
    internal_ping c6Env c6State = some c6Res ∧
    c6Res.2 = true ∧
    RewardFeeFraction.multiply ⟨1, 10⟩ 300 = 0 ∧
    ¬ RewardFeeFraction.multiply ⟨1, 10⟩ 300 = 30 ∧
    c6Res.1.total_staked_balance = 1000400 ∧
    c6Res.1.total_stake_shares = 1000100 ∧
    (c6Res.1.accounts "owner").stake_shares = 0 := by
  refine ⟨rfl, by decide, by decide, by decide, by decide, by decide, by decide⟩

/-! ## Multisig: data model (src/contracts/multisig/main.ts)

Public keys are opaque byte strings; we model them as `Nat` with value
equality.  The persistent maps are modelled as total functions: `requests`
and `confirmations` to `Option` (presence matters), `num_requests_pk` with
default 0 for an absent entry.  `RequestId` is a `u32`; the nonce arithmetic
wraps modulo 2^32. -/

/-- Cooldown before `delete_request` may run (nanoseconds). -/
def REQUEST_COOLDOWN : Nat := 900000000000

/-- 2^32, the modulus of `u32` (`RequestId` and the per-key counters). -/
def U32MOD : Nat := 2 ^ 32

/-- Wrapping `u32` addition. -/
def add32 (a b : Nat) : Nat := (a + b) % U32MOD

/-- Wrapping `u32` subtraction. -/
def sub32 (a b : Nat) : Nat := (a + U32MOD - b) % U32MOD

/-- Opaque model of a public key (`Uint8Array`), compared by value. -/
abbrev PK := Nat

/-- The tagged action variants (`MultiSigRequestAction` subclasses).  Payloads
that never influence control flow or contract state (code blobs, call
arguments, permission details) are collapsed to representative fields. -/
inductive MsAction where
  | transfer (amount : Nat)
  | createAccount
  | deployContract (code : Nat)
  | addKey (public_key : PK) (has_permission : Bool)
  | deleteKey (public_key : PK)
  | functionCall (method_name : String) (deposit : Nat) (gas : Nat)
  | setNumConfirmations (num_confirmations : Nat)
  | setActiveRequestsLimit (active_request_limit : Nat)
  deriving Repr, DecidableEq

/-- The runtime `ActionType` tag, in the enum's declaration order. -/
def MsAction.typeIdx : MsAction → Nat
  | .transfer _ => 0
  | .createAccount => 1
  | .deployContract _ => 2
  | .addKey _ _ => 3
  | .deleteKey _ => 4
  | .functionCall _ _ _ => 5
  | .setNumConfirmations _ => 6
  | .setActiveRequestsLimit _ => 7

/-- Field read through the unchecked `as TransferAction` downcast.  A
mismatched variant (possible only via case fallthrough) reads unspecified
memory in AssemblyScript; we model it as the default value — no assert ever
inspects such a value before the claims' behaviour is decided. -/
def MsAction.transferAmount : MsAction → Nat
  | .transfer a => a
  | _ => 0

/-- Field read through the unchecked `as DeployContractAction` downcast. -/
def MsAction.deployCode : MsAction → Nat
  | .deployContract c => c
  | _ => 0

/-- Key read through the unchecked `as AddKeyAction` downcast. -/
def MsAction.keyToAdd : MsAction → PK
  | .addKey pk _ => pk
  | _ => 0

/-- Permission flag read through the unchecked `as AddKeyAction` downcast. -/
def MsAction.keyPermission : MsAction → Bool
  | .addKey _ p => p
  | _ => false

/-- Key read through the unchecked `as DeleteKeyAction` downcast. -/
def MsAction.keyToDelete : MsAction → PK
  | .deleteKey pk => pk
  | _ => 0

/-- Method name read through the unchecked `as FunctionCallAction` downcast. -/
def MsAction.callMethod : MsAction → String
  | .functionCall m _ _ => m
  | _ => ""

/-- Deposit read through the unchecked `as FunctionCallAction` downcast. -/
def MsAction.callDeposit : MsAction → Nat
  | .functionCall _ d _ => d
  | _ => 0

/-- Gas read through the unchecked `as FunctionCallAction` downcast. -/
def MsAction.callGas : MsAction → Nat
  | .functionCall _ _ g => g
  | _ => 0

/-- Value read through the unchecked `as SetNumConfirmationsAction` downcast. -/
def MsAction.confirmationsValue : MsAction → Nat
  | .setNumConfirmations n => n
  | _ => 0

/-- Value read through the unchecked `as SetActiveRequestsLimitAction` downcast. -/
def MsAction.limitValue : MsAction → Nat
  | .setActiveRequestsLimit n => n
  | _ => 0

/-- `class MultiSigRequest`. -/
structure MultiSigRequest where
  receiver_id : String
  actions : List MsAction
  deriving Repr, DecidableEq

/-- `class MultiSigRequestWithSigner`. -/
structure MultiSigRequestWithSigner where
  request : MultiSigRequest
  signer_pk : PK
  added_timestamp : Nat
  deriving Repr, DecidableEq

/-- The distinct assert failures of the multisig contract, in the order the
claims refer to them. -/
inductive MsErr where
  | notSelf
  | tooManyActiveRequests
  | requestNotFound
  | confirmationsMismatch
  | alreadyConfirmed
  | removeFailed
  | cooldownNotElapsed
  | selfRequestRequired
  | oneActionRequired
  deriving Repr, DecidableEq

/-- One primitive action appended to the outbound `ContractPromiseBatch`. -/
inductive PromiseAct where
  | transfer (amount : Nat)
  | createAccount
  | deployContract (code : Nat)
  | addAccessKey (public_key : PK)
  | addFullAccessKey (public_key : PK)
  | deleteKey (public_key : PK)
  | functionCall (method_name : String) (deposit : Nat) (gas : Nat)
  deriving Repr, DecidableEq

/-- `class MultiSigContract` state. -/
structure MultiSigContract where
  num_confirmations : Nat
  request_nonce : Nat
  requests : Nat → Option MultiSigRequestWithSigner
  confirmations : Nat → Option (Finset PK)
  num_requests_pk : PK → Nat
  active_requests_limit : Nat

/-- Host execution context for one multisig call. -/
structure MsEnv where
  predecessor : String
  contractName : String
  senderPk : PK
  blockTimestamp : Nat

/-- `add_request`: checks the caller, bumps the signer's counter against the
limit, stores an empty confirmation set under the current nonce and advances
the nonce.  As in the source, nothing is written to the `requests` map. -/
def add_request (env : MsEnv) (_request : MultiSigRequest)
    (s : MultiSigContract) : Except MsErr (MultiSigContract × Nat) :=
  if env.contractName ≠ env.predecessor then .error .notSelf else
  let sender_pk := env.senderPk
  let num_requests := add32 (s.num_requests_pk sender_pk) 1
  if s.active_requests_limit < num_requests then .error .tooManyActiveRequests else
  let s1 := { s with num_requests_pk :=
    fun pk => if pk = sender_pk then num_requests else s.num_requests_pk pk }
  let s2 := { s1 with confirmations :=
    fun id => if id = s1.request_nonce then some ∅ else s1.confirmations id }
  let s3 := { s2 with request_nonce := add32 s2.request_nonce 1 }
  .ok (s3, sub32 s3.request_nonce 1)

/-- `remove_request`: drops the confirmation set, then the request record, and
lowers the signer's counter — but only when it is strictly positive. -/
def remove_request (request_id : Nat) (s : MultiSigContract) :
    Except MsErr (MultiSigContract × MultiSigRequest) :=
  let s1 := { s with confirmations :=
    fun id => if id = request_id then none else s.confirmations id }
  match s1.requests request_id with
  | none => .error .removeFailed
  | some rws =>
    let s2 := { s1 with requests :=
      fun id => if id = request_id then none else s1.requests id }
    let num_requests := s2.num_requests_pk rws.signer_pk
    let num_requests1 := if 0 < num_requests then num_requests - 1 else num_requests
    let s3 := { s2 with num_requests_pk :=
      fun pk => if pk = rws.signer_pk then num_requests1 else s2.num_requests_pk pk }
    .ok (s3, rws.request)

/-- `assert_valid_request`: caller check, request present, confirmations
present. -/
def assert_valid_request (env : MsEnv) (request_id : Nat)
    (s : MultiSigContract) : Except MsErr Unit :=
  if env.contractName ≠ env.predecessor then .error .notSelf else
  if (s.requests request_id).isNone then .error .requestNotFound else
  if (s.confirmations request_id).isNone then .error .confirmationsMismatch else
  .ok ()

/-- `delete_request`: validity and cooldown checks only — the source never
removes anything. -/
def delete_request (env : MsEnv) (request_id : Nat) (s : MultiSigContract) :
    Except MsErr MultiSigContract :=
  match assert_valid_request env request_id s with
  | .error e => .error e
  | .ok _ =>
    match s.requests request_id with
    | none => .error .requestNotFound
    | some rws =>
      if env.blockTimestamp ≤ rws.added_timestamp + REQUEST_COOLDOWN then
        .error .cooldownNotElapsed
      else .ok s

/-- `assert_self_request`. -/
def assert_self_request (env : MsEnv) (receiver_id : String) :
    Except MsErr Unit :=
  if receiver_id = env.contractName then .ok () else .error .selfRequestRequired

/-- `assert_one_action_only`. -/
def assert_one_action_only (env : MsEnv) (receiver_id : String)
    (num_actions : Nat) : Except MsErr Unit :=
  match assert_self_request env receiver_id with
  | .error e => .error e
  | .ok _ => if num_actions = 1 then .ok () else .error .oneActionRequired

/-- Case `SetActiveRequestsLimit` of `execute_request`'s switch (returns from
the action's callback). -/
def msCase7 (env : MsEnv) (receiver_id : String) (num_actions : Nat)
    (a : MsAction) (s : MultiSigContract) (acc : List PromiseAct) :
    Except MsErr (MultiSigContract × List PromiseAct) :=
  match assert_one_action_only env receiver_id num_actions with
  | .error e => .error e
  | .ok _ => .ok ({ s with active_requests_limit := a.limitValue }, acc)

/-- Case `SetNumConfirmations` (returns from the action's callback, so case 7
is not reached). -/
def msCase6 (env : MsEnv) (receiver_id : String) (num_actions : Nat)
    (a : MsAction) (s : MultiSigContract) (acc : List PromiseAct) :
    Except MsErr (MultiSigContract × List PromiseAct) :=
  match assert_one_action_only env receiver_id num_actions with
  | .error e => .error e
  | .ok _ => .ok ({ s with num_confirmations := a.confirmationsValue }, acc)

/-- Case `FunctionCall`; the missing `break` lets execution fall through into
case 6. -/
def msCase5 (env : MsEnv) (receiver_id : String) (num_actions : Nat)
    (a : MsAction) (s : MultiSigContract) (acc : List PromiseAct) :
    Except MsErr (MultiSigContract × List PromiseAct) :=
  msCase6 env receiver_id num_actions a s
    (acc ++ [PromiseAct.functionCall a.callMethod a.callDeposit a.callGas])

/-- Case `DeleteKey`: self-check, cascade purge of every request signed by the
key (confirmations and record), removal of the key's counter entry (reads
back as 0), the outbound delete; then fallthrough into case 5. -/
def msCase4 (env : MsEnv) (receiver_id : String) (num_actions : Nat)
    (a : MsAction) (s : MultiSigContract) (acc : List PromiseAct) :
    Except MsErr (MultiSigContract × List PromiseAct) :=
  match assert_self_request env receiver_id with
  | .error e => .error e
  | .ok _ =>
    let pk := a.keyToDelete
    let s1 : MultiSigContract := { s with
      requests := fun id =>
        match s.requests id with
        | some r => if r.signer_pk = pk then none else some r
        | none => none
      confirmations := fun id =>
        match s.requests id with
        | some r => if r.signer_pk = pk then none else s.confirmations id
        | none => s.confirmations id
      num_requests_pk := fun k => if k = pk then 0 else s.num_requests_pk k }
    msCase5 env receiver_id num_actions a s1 (acc ++ [PromiseAct.deleteKey pk])

/-- Case `AddKey`: self-check, the outbound add-key, then fallthrough into
case 4. -/
def msCase3 (env : MsEnv) (receiver_id : String) (num_actions : Nat)
    (a : MsAction) (s : MultiSigContract) (acc : List PromiseAct) :
    Except MsErr (MultiSigContract × List PromiseAct) :=
  match assert_self_request env receiver_id with
  | .error e => .error e
  | .ok _ =>
    let acc1 :=
      if a.keyPermission then acc ++ [PromiseAct.addAccessKey a.keyToAdd]
      else acc ++ [PromiseAct.addFullAccessKey a.keyToAdd]
    msCase4 env receiver_id num_actions a s acc1

/-- Case `DeployContract`, falling through into case 3. -/
def msCase2 (env : MsEnv) (receiver_id : String) (num_actions : Nat)
    (a : MsAction) (s : MultiSigContract) (acc : List PromiseAct) :
    Except MsErr (MultiSigContract × List PromiseAct) :=
  msCase3 env receiver_id num_actions a s (acc ++ [PromiseAct.deployContract a.deployCode])

/-- Case `CreateAccount`, falling through into case 2. -/
def msCase1 (env : MsEnv) (receiver_id : String) (num_actions : Nat)
    (a : MsAction) (s : MultiSigContract) (acc : List PromiseAct) :
    Except MsErr (MultiSigContract × List PromiseAct) :=
  msCase2 env receiver_id num_actions a s (acc ++ [PromiseAct.createAccount])

/-- Case `Transfer`, falling through into case 1. -/
def msCase0 (env : MsEnv) (receiver_id : String) (num_actions : Nat)
    (a : MsAction) (s : MultiSigContract) (acc : List PromiseAct) :
    Except MsErr (MultiSigContract × List PromiseAct) :=
  msCase1 env receiver_id num_actions a s (acc ++ [PromiseAct.transfer a.transferAmount])

/-- One iteration of `execute_request`'s `forEach`: the switch enters at the
action's tag and, lacking `break`s, falls through the following cases until a
callback `return` (cases 6 and 7) or the end of the switch. -/
def execAction (env : MsEnv) (receiver_id : String) (num_actions : Nat)
    (a : MsAction) (s : MultiSigContract) (acc : List PromiseAct) :
    Except MsErr (MultiSigContract × List PromiseAct) :=
  match a with
  | .transfer _ => msCase0 env receiver_id num_actions a s acc
  | .createAccount => msCase1 env receiver_id num_actions a s acc
  | .deployContract _ => msCase2 env receiver_id num_actions a s acc
  | .addKey _ _ => msCase3 env receiver_id num_actions a s acc
  | .deleteKey _ => msCase4 env receiver_id num_actions a s acc
  | .functionCall _ _ _ => msCase5 env receiver_id num_actions a s acc
  | .setNumConfirmations _ => msCase6 env receiver_id num_actions a s acc
  | .setActiveRequestsLimit _ => msCase7 env receiver_id num_actions a s acc

/-- `execute_request`: one outbound batch towards `request.receiver_id`,
processing every action (the callback `return`s only end the current
iteration). -/
def execute_request (env : MsEnv) (request : MultiSigRequest)
    (s : MultiSigContract) : Except MsErr (MultiSigContract × List PromiseAct) :=
  request.actions.foldlM
    (fun p a => execAction env request.receiver_id request.actions.length a p.1 p.2)
    (s, ([] : List PromiseAct))

/-- `confirm`: validity check, duplicate-key guard, then either the threshold
path (remove and execute) or recording the confirmation (empty outbound
batch). -/
def confirm (env : MsEnv) (request_id : Nat) (s : MultiSigContract) :
    Except MsErr (MultiSigContract × List PromiseAct) :=
  match assert_valid_request env request_id s with
  | .error e => .error e
  | .ok _ =>
    let confs := (s.confirmations request_id).getD ∅
    if env.senderPk ∈ confs then .error .alreadyConfirmed else
    if s.num_confirmations ≤ confs.card + 1 then
      match remove_request request_id s with
      | .error e => .error e
      | .ok (s1, request) => execute_request env request s1
    else
      .ok ({ s with confirmations := fun id =>
        if id = request_id then some (insert env.senderPk confs)
        else s.confirmations id }, [])

/-! ## Multisig: claim checks -/

/-- A fresh multisig contract: threshold 2, limit 12, empty maps. -/
def c7State : MultiSigContract :=
  { num_confirmations := 2
    request_nonce := 0
    requests := fun _ => none
    confirmations := fun _ => none
    num_requests_pk := fun _ => 0
    active_requests_limit := 12 }

/-- Environment for the C7 check: self-call authorized by key 7. -/
def c7Env : MsEnv := ⟨"ms", "ms", 7, 0⟩

/-- The request added in the C7 check. -/
def c7Req : MultiSigRequest := ⟨"bob", [.transfer 5]⟩

/-- Result of `add_request` in the C7 check. -/
def c7Res : MultiSigContract × Nat :=
  match add_request c7Env c7Req c7State with
  | .ok r => r
  | .error _ => (c7State, 0)

/-- C7: `add_request` increments key 7's counter, allocates RequestId 0,
stores an empty confirmation set and advances the nonce — but it never writes
the request (with signer and timestamp) into the `requests` map: entry 0
stays `none`. -/
theorem c7_add_request_never_stores_request :
    add_request c7Env c7Req c7State = .ok c7Res ∧
    c7Res.2 = 0 ∧
    c7Res.1.request_nonce = 1 ∧
    c7Res.1.num_requests_pk 7 = 1 ∧
    c7Res.1.confirmations 0 = some ∅ ∧
    c7Res.1.requests 0 = none := by
  exact ⟨rfl, rfl, rfl, rfl, rfl, rfl⟩

/-- A multisig state holding one stored request (id 0, signer key 7,
timestamp 0, a transfer to the external account "bob") with an empty
confirmation set, threshold 1. -/
def c8State : MultiSigContract :=
  { num_confirmations := 1
    request_nonce := 1
    requests := fun id => if id = 0 then some ⟨⟨"bob", [.transfer 5]⟩, 7, 0⟩ else none
    confirmations := fun id => if id = 0 then some ∅ else none
    num_requests_pk := fun pk => if pk = 7 then 1 else 0
    active_requests_limit := 12 }

/-- Environment for the C8 checks: self-call authorized by key 9. -/
def c8Env : MsEnv := ⟨"ms", "ms", 9, 0⟩

/-- The C8 state with threshold 3 (so one confirmation is below threshold). -/
def c8StateBelow : MultiSigContract := { c8State with num_confirmations := 3 }

/-- Result of the below-threshold confirm in the C8 check. -/
def c8BelowRes : MultiSigContract × List PromiseAct :=
  match confirm c8Env 0 c8StateBelow with
  | .ok r => r
  | .error _ => (c8StateBelow, [PromiseAct.createAccount])

/-- The C8 below-threshold state with key 9 already recorded. -/
def c8StateDup : MultiSigContract :=
  { c8StateBelow with confirmations := fun id => if id = 0 then some {9} else none }

/-- C8: with threshold 1 reached, `confirm` removes the request and calls
`execute_request` — whose switch, lacking `break`s, falls from the `Transfer`
case through `CreateAccount` and `DeployContract` into `AddKey`, where
`assert_self_request` fails for the external receiver "bob".  The whole call
therefore aborts instead of executing the transfer exactly once and retiring
the request.  Below threshold, a confirm only records the key and emits no
outbound action, and a duplicate key fails with the already-confirmed
error — those two conjuncts match the claim. -/
theorem c8_threshold_confirm_aborts_on_fallthrough :
    confirm c8Env 0 c8State = .error .selfRequestRequired ∧
    confirm c8Env 0 c8StateBelow = .ok c8BelowRes ∧
    c8BelowRes.2 = [] ∧
    c8BelowRes.1.confirmations 0 = some {9} ∧
    c8BelowRes.1.requests 0 = c8StateBelow.requests 0 ∧
    confirm c8Env 0 c8StateDup = .error .alreadyConfirmed := by
  refine ⟨rfl, rfl, rfl, ?_, rfl, rfl⟩
  decide

/-- Environment for the C9 check: one time unit past the cooldown. -/
def c9Env : MsEnv := ⟨"ms", "ms", 9, 900000000001⟩

/-- Environment for the C9 check: cooldown not yet elapsed (boundary). -/
def c9EnvEarly : MsEnv := ⟨"ms", "ms", 9, 900000000000⟩

/-- C9: before the cooldown elapses `delete_request` fails as the claim says,
but once it has elapsed the call succeeds *without removing anything*: the
result state is the input state, request 0 and its confirmation set
included. -/
theorem c9_delete_request_removes_nothing :
    delete_request c9EnvEarly 0 c8State = .error .cooldownNotElapsed ∧
    delete_request c9Env 0 c8State = .ok c8State ∧
    c8State.requests 0 = some ⟨⟨"bob", [.transfer 5]⟩, 7, 0⟩ ∧
    c8State.confirmations 0 = some ∅ := by
  refine ⟨rfl, rfl, rfl, ?_⟩
  decide

/-- C10: for any state and any stored request, `remove_request` lowers the
signer key's counter only when it is strictly positive, writes zero back as
zero, and never lets the unsigned counter wrap below zero. -/
theorem c10_remove_request_counter (s : MultiSigContract) (request_id : Nat)
    (rws : MultiSigRequestWithSigner) (h : s.requests request_id = some rws) :
    ∃ s1, remove_request request_id s = .ok (s1, rws.request) ∧
      s1.num_requests_pk rws.signer_pk =
        (if 0 < s.num_requests_pk rws.signer_pk
         then s.num_requests_pk rws.signer_pk - 1
         else s.num_requests_pk rws.signer_pk) ∧
      s1.num_requests_pk rws.signer_pk ≤ s.num_requests_pk rws.signer_pk ∧
      (s.num_requests_pk rws.signer_pk = 0 →
        s1.num_requests_pk rws.signer_pk = 0) := by
  unfold remove_request
  simp only [h]
  refine ⟨_, rfl, ?_, ?_, ?_⟩
  · simp
  · simp
    split <;> omega
  · intro h0
    simp [h0]

/-- Witness for C10 at the stored request of `c8State`. -/
theorem c10_remove_request_counter_witness :
    c8State.requests 0 = some ⟨⟨"bob", [.transfer 5]⟩, 7, 0⟩ ∧
    (∃ s1, remove_request 0 c8State = .ok (s1, ⟨"bob", [.transfer 5]⟩) ∧
      s1.num_requests_pk 7 =
        (if 0 < c8State.num_requests_pk 7
         then c8State.num_requests_pk 7 - 1
         else c8State.num_requests_pk 7) ∧
      s1.num_requests_pk 7 ≤ c8State.num_requests_pk 7 ∧
      (c8State.num_requests_pk 7 = 0 → s1.num_requests_pk 7 = 0)) :=
  ⟨rfl, c10_remove_request_counter c8State 0 ⟨⟨"bob", [.transfer 5]⟩, 7, 0⟩ rfl⟩

end NearCore
